import Mathlib

/-!
Shallow embedding of the ReGen-Architect application core:
the retry orchestrator (src/services/geminiService.ts), the
application state machine (src/App.tsx), and the view-level
guards (src/components/AnalysisView.tsx, PlanView).

Asynchronous operations are embedded by passing their outcomes
explicitly: an operation becomes a function from the attempt
index to an outcome, and an event handler takes the outcome of
the awaited call as an argument.  JS numbers that the claims
compare with integers are modelled as Int; JSON payload strings
stay String.
-/

/-- A JS error value as observed by `retryOperation`: it may or may
not carry a numeric `status` field (`error.status === 429` is false
when the field is absent). -/
structure ErrVal where
  status : Option Int
  msg : String
deriving DecidableEq, Repr

/-- Outcome of one invocation of an asynchronous operation:
either a resolved value or a thrown error. -/
inductive Outcome (α : Type) where
  | ok (v : α)
  | err (e : ErrVal)
deriving DecidableEq, Repr

/-- `error.status === 429 || error.status === 503`
(src/services/geminiService.ts line 26). -/
def shouldRetry (e : ErrVal) : Bool :=
  e.status == some 429 || e.status == some 503

/-- Observable trace of one `retryOperation` run: the settled
promise (`Except.error none` models the dead-code `throw lastError`
with `lastError` still `undefined`, reachable only for
`maxRetries = 0`), the number of invocations of the wrapped
operation, and the list of sleep durations issued in order. -/
structure RunTrace (α : Type) where
  result : Except (Option ErrVal) α
  attempts : Nat
  delays : List Nat
deriving Repr

/-- The `for (let i = 0; i < maxRetries; i++)` loop of
`retryOperation` (src/services/geminiService.ts lines 20-37),
with `k` the number of remaining iterations (so the loop index is
`i = maxRetries - k`). Each iteration awaits `op i`; a thrown
error is retried after a sleep of `initialDelay * 2^i` exactly
when `shouldRetry` holds and `i < maxRetries - 1`, otherwise it is
rethrown; leaving the loop rethrows `lastError`. -/
def retryLoop {α : Type} (op : Nat → Outcome α) (maxRetries initialDelay : Nat) :
    Nat → Option ErrVal → RunTrace α
  | 0, lastError => ⟨Except.error lastError, 0, []⟩
  | k + 1, _ =>
      let i := maxRetries - (k + 1)
      match op i with
      | Outcome.ok v => ⟨Except.ok v, 1, []⟩
      | Outcome.err e =>
          if shouldRetry e && decide (i < maxRetries - 1) then
            let r := retryLoop op maxRetries initialDelay k (some e)
            ⟨r.result, r.attempts + 1, initialDelay * 2 ^ i :: r.delays⟩
          else ⟨Except.error (some e), 1, []⟩

/-- `retryOperation(operation, maxRetries = 3, initialDelay = 2000)`
(src/services/geminiService.ts lines 15-38). -/
def retryOperation {α : Type} (op : Nat → Outcome α)
    (maxRetries : Nat := 3) (initialDelay : Nat := 2000) : RunTrace α :=
  retryLoop op maxRetries initialDelay maxRetries none

/-- Concrete operation: three consecutive transient failures (429)
followed by success on every later invocation. -/
def opC2 : Nat → Outcome Nat := fun i =>
  if i < 3 then Outcome.err ⟨some 429, "rate limited"⟩ else Outcome.ok 42

-- Data model (src/types.ts, provided as src/unnamed/part_000).

/-- `enum AppState` (types). -/
inductive AppState where
  | IDLE
  | ANALYZING
  | REVIEW_ANALYSIS
  | GENERATING_VISION
  | PLANNING
  | COMPLETE
deriving DecidableEq, Repr

/-- `enum RestorationType` (types). -/
inductive RestorationType where
  | POLLINATOR_HAVEN
  | FOOD_FOREST
  | RAIN_GARDEN
  | NATIVE_MEADOW
  | COMMUNITY_PARK
deriving DecidableEq, Repr

/-- `enum BudgetLevel` (types). -/
inductive BudgetLevel where
  | LOW
  | MEDIUM
  | HIGH
deriving DecidableEq, Repr

/-- `interface Coordinates` (types); the numeric values never enter
any claim's arithmetic, so latitude and longitude are Int. -/
structure Coordinates where
  latitude : Int
  longitude : Int
deriving DecidableEq, Repr

/-- `interface SiteAnalysis` (types); `suitability` maps every
restoration type to its 0-100 score. -/
structure SiteAnalysis where
  sunlightExposure : String
  soilSealingEstimate : Int
  biodiversityScore : Int
  hardinessZoneEstimate : String
  estimatedAreaSqM : String
  observedFeatures : List String
  ecologicalDeficits : List String
  suitability : RestorationType → Int

/-- `interface PlanPhase` (types). -/
structure PlanPhase where
  phaseName : String
  durationWeeks : Int
  tasks : List String
  materialsNeeded : List String
  estimatedCost : Int
  technicalNotes : String
  recommendedServiceCategory : String
deriving DecidableEq, Repr

/-- `interface RestorationPlan` (types). -/
structure RestorationPlan where
  title : String
  summary : String
  totalDurationWeeks : Int
  totalEstimatedCost : Int
  currencySymbol : String
  phases : List PlanPhase
  maintenanceSchedule : String
  longTermImpact : String
deriving DecidableEq, Repr

/-- `interface ServiceProvider` (types). -/
structure ServiceProvider where
  name : String
  description : String
  phoneNumber : String
  address : String
deriving DecidableEq, Repr

/-- `interface LocalSearchResult` (types). -/
structure LocalSearchResult where
  providers : List ServiceProvider
deriving DecidableEq, Repr

/-- `interface ProjectState` (types): the single mutable session
record held by the `App` controller. -/
structure ProjectState where
  originalImage : Option String
  restoredImage : Option String
  analysis : Option SiteAnalysis
  selectedType : Option RestorationType
  budget : BudgetLevel
  plan : Option RestorationPlan
  location : Option Coordinates

/-- The controller's full React state: the `appState` and
`project` `useState` cells of `App` (src/App.tsx lines 11-20). -/
structure AppFull where
  appState : AppState
  project : ProjectState

/-- The initial `project` value (src/App.tsx lines 12-20), also
the value `resetApp` re-installs (lines 136-144). -/
def initialProject : ProjectState :=
  { originalImage := none
    restoredImage := none
    analysis := none
    selectedType := none
    budget := BudgetLevel.MEDIUM
    plan := none
    location := none }

/-- The state on load: `AppState.IDLE` with the initial project. -/
def initialApp : AppFull :=
  { appState := AppState.IDLE, project := initialProject }

-- Controller handlers (src/App.tsx). Each awaited service call is
-- embedded by passing its settled outcome as an argument.

/-- `handleFileUpload` / `handleDemoLoad` success path: store the
base64 payload in `project.originalImage` (src/App.tsx lines 27-40). -/
def handleFileUpload (s : AppFull) (base64Data : String) : AppFull :=
  { s with project := { s.project with originalImage := some base64Data } }

/-- `startAnalysis` (src/App.tsx lines 97-109): enter ANALYZING,
await `analyzeSiteImage`; on success store the analysis and enter
REVIEW_ANALYSIS, on failure return to IDLE leaving the project
untouched. -/
def startAnalysis (s : AppFull) (result : Except ErrVal SiteAnalysis) : AppFull :=
  match result with
  | Except.ok analysis =>
      { appState := AppState.REVIEW_ANALYSIS
        project := { s.project with analysis := some analysis } }
  | Except.error _ =>
      { appState := AppState.IDLE, project := s.project }

/-- `handleTypeSelection` (src/App.tsx lines 111-132): bail out if
either `originalImage` or `analysis` is missing; otherwise record
the chosen type and budget, enter GENERATING_VISION, and await
`Promise.all` of the vision-image and plan calls: if both resolve,
commit both results and enter COMPLETE; if either rejects, return
to REVIEW_ANALYSIS with `restoredImage` and `plan` untouched. -/
def handleTypeSelection (s : AppFull) (t : RestorationType) (b : BudgetLevel)
    (imgRes : Except ErrVal String) (planRes : Except ErrVal RestorationPlan) : AppFull :=
  match s.project.originalImage, s.project.analysis with
  | some _, some _ =>
      let p1 := { s.project with selectedType := some t, budget := b }
      match imgRes, planRes with
      | Except.ok restoredImage, Except.ok plan =>
          { appState := AppState.COMPLETE
            project := { p1 with restoredImage := some restoredImage, plan := some plan } }
      | _, _ =>
          { appState := AppState.REVIEW_ANALYSIS, project := p1 }
  | _, _ => s

/-- `resetApp` (src/App.tsx lines 134-146). -/
def resetApp (_s : AppFull) : AppFull :=
  { appState := AppState.IDLE, project := initialProject }

/-- `handleLocationRequest` success callback (src/App.tsx lines
70-80): store the coordinates. -/
def handleLocationSuccess (s : AppFull) (c : Coordinates) : AppFull :=
  { s with project := { s.project with location := some c } }

/-- One user-visible controller event, carrying the outcome of the
awaited service call(s) it triggers. -/
inductive Event where
  | upload (base64Data : String) (result : Except ErrVal SiteAnalysis)
  | locationOk (c : Coordinates)
  | locationFail
  | select (t : RestorationType) (b : BudgetLevel)
      (imgRes : Except ErrVal String) (planRes : Except ErrVal RestorationPlan)
  | reset

/-- The controller's reaction to one event, composed from the
handlers above exactly as src/App.tsx wires them. -/
def step (s : AppFull) (e : Event) : AppFull :=
  match e with
  | Event.upload d r => startAnalysis (handleFileUpload s d) r
  | Event.locationOk c => handleLocationSuccess s c
  | Event.locationFail => s
  | Event.select t b i p => handleTypeSelection s t b i p
  | Event.reset => resetApp s

-- Interleaved execution model.  The browser event loop lets the
-- user click "New Project" (resetApp, rendered whenever appState is
-- not IDLE, src/App.tsx lines 158-166) while a handler is suspended
-- at an await, and a reset does not cancel the in-flight promise:
-- its continuation still runs when the promise settles, and its
-- functional updater `setProject(prev => ...)` is applied to the
-- project as it is THEN (src/App.tsx lines 102 and 124).  Each
-- handler is therefore split into its synchronous prefix (up to the
-- first await) and the continuation, with in-flight calls recorded
-- as pending continuations carrying their predetermined outcomes.

/-- An in-flight service call together with the outcome it will
settle with: the awaited `analyzeSiteImage` of `startAnalysis`, or
the awaited `Promise.all` of `handleTypeSelection`. -/
inductive Pending where
  | analysisCall (result : Except ErrVal SiteAnalysis)
  | generation (imgRes : Except ErrVal String)
      (planRes : Except ErrVal RestorationPlan)

/-- The controller state including the in-flight continuations, in
firing order. -/
structure AsyncApp where
  appState : AppState
  project : ProjectState
  pending : List Pending

/-- The state on load: IDLE, initial project, nothing in flight. -/
def asyncInit : AsyncApp :=
  { appState := AppState.IDLE, project := initialProject, pending := [] }

/-- One scheduling event: a handler's synchronous prefix runs, or
the `n`-th in-flight promise settles and its continuation runs. -/
inductive AsyncEvent where
  | uploadStart (base64Data : String) (r : Except ErrVal SiteAnalysis)
  | selectStart (t : RestorationType) (b : BudgetLevel)
      (imgRes : Except ErrVal String) (planRes : Except ErrVal RestorationPlan)
  | settle (n : Nat)
  | locationOk (c : Coordinates)
  | locationFail
  | reset

/-- The interleaved small-step transition.  `uploadStart` is
`handleFileUpload` plus `startAnalysis` up to its await (store the
image, enter ANALYZING, fire the call); `selectStart` is
`handleTypeSelection` up to its await (guard on `originalImage` and
`analysis`, record type and budget, enter GENERATING_VISION, fire
`Promise.all`); `settle n` runs the continuation of the `n`-th
in-flight call on the CURRENT project, exactly as the stale
`setProject(prev => ...)` updaters do; `reset` reverts state and
project but cancels nothing. -/
def asyncStep (s : AsyncApp) (e : AsyncEvent) : AsyncApp :=
  match e with
  | AsyncEvent.uploadStart d r =>
      { appState := AppState.ANALYZING
        project := { s.project with originalImage := some d }
        pending := s.pending ++ [Pending.analysisCall r] }
  | AsyncEvent.selectStart t b i p =>
      match s.project.originalImage, s.project.analysis with
      | some _, some _ =>
          { appState := AppState.GENERATING_VISION
            project := { s.project with selectedType := some t, budget := b }
            pending := s.pending ++ [Pending.generation i p] }
      | _, _ => s
  | AsyncEvent.settle n =>
      match s.pending[n]? with
      | none => s
      | some (Pending.analysisCall (Except.ok a)) =>
          { appState := AppState.REVIEW_ANALYSIS
            project := { s.project with analysis := some a }
            pending := s.pending.eraseIdx n }
      | some (Pending.analysisCall (Except.error _)) =>
          { appState := AppState.IDLE
            project := s.project
            pending := s.pending.eraseIdx n }
      | some (Pending.generation (Except.ok img) (Except.ok plan)) =>
          { appState := AppState.COMPLETE
            project := { s.project with restoredImage := some img, plan := some plan }
            pending := s.pending.eraseIdx n }
      | some (Pending.generation _ _) =>
          { appState := AppState.REVIEW_ANALYSIS
            project := s.project
            pending := s.pending.eraseIdx n }
  | AsyncEvent.locationOk c =>
      { s with project := { s.project with location := some c } }
  | AsyncEvent.locationFail => s
  | AsyncEvent.reset =>
      { appState := AppState.IDLE, project := initialProject
        pending := s.pending }

/-- The program states reachable under every interleaving the
browser allows. -/
inductive AsyncReachable : AsyncApp → Prop
  | init : AsyncReachable asyncInit
  | next : ∀ (s : AsyncApp) (e : AsyncEvent), AsyncReachable s →
      AsyncReachable (asyncStep s e)

/-- The program states reachable when the session is never reset
while a service call is in flight (the benign schedules: every reset
happens with `pending` empty). -/
inductive QuietReachable : AsyncApp → Prop
  | init : QuietReachable asyncInit
  | next : ∀ (s : AsyncApp) (e : AsyncEvent), QuietReachable s →
      (e = AsyncEvent.reset → s.pending = []) →
      QuietReachable (asyncStep s e)

/-- The plan-analysis invariant together with the auxiliary fact
that makes it inductive: a generation attempt is only in flight
while `analysis` is non-null. -/
def PlanAnalysisInv (s : AsyncApp) : Prop :=
  (s.project.plan ≠ none → s.project.analysis ≠ none) ∧
  (∀ i p, Pending.generation i p ∈ s.pending → s.project.analysis ≠ none)

-- findLocalServices (src/services/geminiService.ts lines 289-318).

/-- What one underlying attempt of the local-service lookup can
observe before its own `catch`: `getAI()` throwing for a missing
API key, the `generateContent` request throwing, or a response
whose `text` is absent or present. -/
inductive ServiceCallOutcome where
  | noApiKey
  | requestError (e : ErrVal)
  | response (text : Option String)

/-- One attempt of `findLocalServices`'s inner async function
(src/services/geminiService.ts lines 290-316): every throw —
missing key, request error, empty response (`"No services found"`),
or a `JSON.parse` failure — is caught by the function's own
`catch`, which resolves with `\x7b providers: [] \x7d`; only a
response whose text parses yields that parsed value.  `parse`
models `JSON.parse` read as a `LocalSearchResult`, `none` meaning
the parse throws. -/
def attemptFindLocalServices (parse : String → Option LocalSearchResult)
    (o : ServiceCallOutcome) : Outcome LocalSearchResult :=
  match o with
  | ServiceCallOutcome.noApiKey => Outcome.ok ⟨[]⟩
  | ServiceCallOutcome.requestError _ => Outcome.ok ⟨[]⟩
  | ServiceCallOutcome.response none => Outcome.ok ⟨[]⟩
  | ServiceCallOutcome.response (some t) =>
      match parse t with
      | some r => Outcome.ok r
      | none => Outcome.ok ⟨[]⟩

/-- `findLocalServices` (src/services/geminiService.ts lines
289-318): the attempt above handed to `retryOperation` with the
default policy; `outcomes i` is what attempt `i` would observe. -/
def findLocalServices (parse : String → Option LocalSearchResult)
    (outcomes : Nat → ServiceCallOutcome) : RunTrace LocalSearchResult :=
  retryOperation (fun i => attemptFindLocalServices parse (outcomes i)) 3 2000

/-- An outcome on which the underlying lookup attempt fails
(missing key, request error, no text, or unparseable text). -/
def serviceFailure (parse : String → Option LocalSearchResult) :
    ServiceCallOutcome → Bool
  | ServiceCallOutcome.noApiKey => true
  | ServiceCallOutcome.requestError _ => true
  | ServiceCallOutcome.response none => true
  | ServiceCallOutcome.response (some t) => (parse t).isNone

-- PlanView (src/components/AnalysisView.tsx, second file in the
-- bundle, lines 160-182 of the combined listing).

/-- PlanView's per-view ephemeral state: `phaseResults` and
`loadingPhases`, both `Record<number, _>` keyed by phase index.
A record update `\x7b ...prev, [index]: v \x7d` is modelled by
consing, with lookup returning the most recent binding. -/
structure PlanViewState where
  phaseResults : List (Nat × LocalSearchResult)
  loadingPhases : List (Nat × Bool)

/-- Everything observable about one `handleSearchForPhase` call:
the view state it leaves behind, whether `findLocalServices` (the
network) was invoked, and the alert message shown, if any. -/
structure SearchEffect where
  state : PlanViewState
  networkCalled : Bool
  alertMsg : Option String

/-- `handleSearchForPhase(index, category)` (PlanView): without a
location it alerts and returns before any call; with one it marks
the phase loading, awaits `findLocalServices`, stores the result
(or alerts on rejection), and finally clears the loading flag. -/
def handleSearchForPhase (location : Option Coordinates) (st : PlanViewState)
    (index : Nat) (_category : String)
    (parse : String → Option LocalSearchResult)
    (outcomes : Nat → ServiceCallOutcome) : SearchEffect :=
  match location with
  | none => ⟨st, false, some "Location is required to find local help."⟩
  | some _ =>
      match (findLocalServices parse outcomes).result with
      | Except.ok result =>
          ⟨{ phaseResults := (index, result) :: st.phaseResults
             loadingPhases := (index, false) :: st.loadingPhases },
           true, none⟩
      | Except.error _ =>
          ⟨{ st with loadingPhases := (index, false) :: st.loadingPhases },
           true, some "Failed to find local services. Please try again later."⟩

-- AnalysisView selection grid (src/components/AnalysisView.tsx
-- lines 102-143).

/-- `const isViable = item.score > 30` (AnalysisView line 104). -/
def isViable (score : Int) : Bool :=
  score > 30

/-- The `disabled` attribute of a restoration-type button:
`disabled=\x7bisGenerating || !isViable\x7d` (AnalysisView line 109). -/
def typeButtonDisabled (isGenerating : Bool) (score : Int) : Bool :=
  isGenerating || !(isViable score)

/-- The button's `onClick` handler
`() => isViable && onSelectType(item.name, selectedBudget)`
(AnalysisView line 108): `some` carries the `onSelectType`
invocation it performs, `none` means no invocation. -/
def typeButtonClick (score : Int) (name : RestorationType)
    (selectedBudget : BudgetLevel) : Option (RestorationType × BudgetLevel) :=
  if isViable score then some (name, selectedBudget) else none

/-- The click handler for the button of type `t` rendered from
`analysis.suitability` (AnalysisView lines 14-17 and 102-143). -/
def analysisButtonClick (analysis : SiteAnalysis) (t : RestorationType)
    (selectedBudget : BudgetLevel) : Option (RestorationType × BudgetLevel) :=
  typeButtonClick (analysis.suitability t) t selectedBudget

-- Concrete inputs used to exercise the theorems below.

/-- A service-unavailable error (HTTP 503). -/
def err503 : ErrVal := ⟨some 503, "Service Unavailable"⟩

/-- A permanent error carrying no retryable status (HTTP 400). -/
def err400 : ErrVal := ⟨some 400, "Bad Request"⟩

/-- An operation that fails with a 503 on every invocation. -/
def opAll503 : Nat → Outcome Nat := fun _ => Outcome.err err503

/-- An operation that fails with a 400 on every invocation. -/
def opAll400 : Nat → Outcome Nat := fun _ => Outcome.err err400

/-- A concrete site analysis. -/
def sampleAnalysis : SiteAnalysis :=
  { sunlightExposure := "Full Sun"
    soilSealingEstimate := 80
    biodiversityScore := 2
    hardinessZoneEstimate := "8b"
    estimatedAreaSqM := "10-20"
    observedFeatures := ["pavement"]
    ecologicalDeficits := ["no pollinators"]
    suitability := fun _ => 55 }

/-- A concrete site analysis on which every type scores 10. -/
def lowScoreAnalysis : SiteAnalysis :=
  { sampleAnalysis with suitability := fun _ => 10 }

/-- A concrete restoration plan. -/
def samplePlan : RestorationPlan :=
  { title := "Pollinator Haven Plan"
    summary := "Depave and plant."
    totalDurationWeeks := 12
    totalEstimatedCost := 1500
    currencySymbol := "$"
    phases := []
    maintenanceSchedule := "Monthly weeding."
    longTermImpact := "More pollinators." }

/-- The state after a successful upload-and-analysis from load. -/
def reviewState : AppFull :=
  step initialApp (Event.upload "img64" (Except.ok sampleAnalysis))

/-- The interleaved run: upload, analysis settles, type selection
starts, the session is reset while the generation is in flight, and
then the stale generation settles onto the reset project. -/
def staleCommitState : AsyncApp :=
  asyncStep (asyncStep (asyncStep (asyncStep (asyncStep asyncInit
    (AsyncEvent.uploadStart "img64" (Except.ok sampleAnalysis)))
    (AsyncEvent.settle 0))
    (AsyncEvent.selectStart RestorationType.POLLINATOR_HAVEN BudgetLevel.MEDIUM
      (Except.ok "restored64") (Except.ok samplePlan)))
    AsyncEvent.reset)
    (AsyncEvent.settle 0)

/-- The same run without the reset: each call settles before the
next event. -/
def quietCompleteState : AsyncApp :=
  asyncStep (asyncStep (asyncStep (asyncStep asyncInit
    (AsyncEvent.uploadStart "img64" (Except.ok sampleAnalysis)))
    (AsyncEvent.settle 0))
    (AsyncEvent.selectStart RestorationType.POLLINATOR_HAVEN BudgetLevel.MEDIUM
      (Except.ok "restored64") (Except.ok samplePlan)))
    (AsyncEvent.settle 0)

-- Helper unfolding lemmas for the retry loop.

theorem retryLoop_succ_ok {α : Type} {op : Nat → Outcome α} {m d k : Nat}
    {last : Option ErrVal} {v : α} (h : op (m - (k + 1)) = Outcome.ok v) :
    retryLoop op m d (k + 1) last = ⟨Except.ok v, 1, []⟩ := by
  simp [retryLoop, h]

theorem retryLoop_succ_retry {α : Type} {op : Nat → Outcome α} {m d k : Nat}
    {last : Option ErrVal} {e : ErrVal} (h : op (m - (k + 1)) = Outcome.err e)
    (hc : shouldRetry e = true) (hlt : m - (k + 1) < m - 1) :
    retryLoop op m d (k + 1) last =
      ⟨(retryLoop op m d k (some e)).result,
       (retryLoop op m d k (some e)).attempts + 1,
       d * 2 ^ (m - (k + 1)) :: (retryLoop op m d k (some e)).delays⟩ := by
  simp [retryLoop, h, hc, hlt]

theorem retryLoop_succ_throw_last {α : Type} {op : Nat → Outcome α} {m d k : Nat}
    {last : Option ErrVal} {e : ErrVal} (h : op (m - (k + 1)) = Outcome.err e)
    (hlt : ¬ m - (k + 1) < m - 1) :
    retryLoop op m d (k + 1) last = ⟨Except.error (some e), 1, []⟩ := by
  simp [retryLoop, h, hlt]

theorem retryLoop_succ_throw_perm {α : Type} {op : Nat → Outcome α} {m d k : Nat}
    {last : Option ErrVal} {e : ErrVal} (h : op (m - (k + 1)) = Outcome.err e)
    (hc : shouldRetry e = false) :
    retryLoop op m d (k + 1) last = ⟨Except.error (some e), 1, []⟩ := by
  simp [retryLoop, h, hc]

/-- When every invocation fails transiently, the loop runs all of
its `k` remaining iterations, sleeping after each but the last,
and throws the error of the final iteration. -/
theorem retryLoop_all_transient {α : Type} (op : Nat → Outcome α) (es : Nat → ErrVal)
    (m d : Nat)
    (hop : ∀ i, op i = Outcome.err (es i)) (htr : ∀ i, shouldRetry (es i) = true) :
    ∀ k, 1 ≤ k → k ≤ m → ∀ last,
      retryLoop op m d k last =
        ⟨Except.error (some (es (m - 1))), k,
         (List.range' (m - k) (k - 1)).map (fun i => d * 2 ^ i)⟩ := by
  intro k
  induction k with
  | zero => intro h1; exact absurd h1 (by omega)
  | succ k ih =>
      intro _ hk last
      cases k with
      | zero =>
          rw [retryLoop_succ_throw_last (hop (m - 1)) (by omega)]
          simp
      | succ k' =>
          have hlt : m - (k' + 1 + 1) < m - 1 := by omega
          rw [retryLoop_succ_retry (hop (m - (k' + 1 + 1))) (htr _) hlt,
            ih (by omega) (by omega) (some (es (m - (k' + 1 + 1))))]
          have hrange : List.range' (m - (k' + 1 + 1)) (k' + 1 + 1 - 1) =
              (m - (k' + 1 + 1)) :: List.range' (m - (k' + 1)) (k' + 1 - 1) := by
            have h1 : k' + 1 + 1 - 1 = (k' + 1 - 1) + 1 := by omega
            have h2 : m - (k' + 1 + 1) + 1 = m - (k' + 1) := by omega
            rw [h1, List.range'_succ, h2]
          rw [hrange]
          simp

/-- Claim C1: for every operation whose every invocation fails with a
transient error (status 429 or 503), `retryOperation` invokes the
operation exactly `maxRetries` times (default 3), sleeping
`initialDelay * 2 ^ (attempt - 1)` milliseconds between consecutive
attempts (base 2000), and propagates the error raised by the final
attempt. -/
theorem retryOperation_all_transient_exhausts {α : Type}
    (op : Nat → Outcome α) (es : Nat → ErrVal) (maxRetries initialDelay : Nat)
    (hop : ∀ i, op i = Outcome.err (es i)) (htr : ∀ i, shouldRetry (es i) = true)
    (hmr : 1 ≤ maxRetries) :
    (retryOperation op maxRetries initialDelay).attempts = maxRetries ∧
    (retryOperation op maxRetries initialDelay).result =
      Except.error (some (es (maxRetries - 1))) ∧
    (retryOperation op maxRetries initialDelay).delays =
      (List.range (maxRetries - 1)).map (fun i => initialDelay * 2 ^ i) := by
  have h := retryLoop_all_transient op es maxRetries initialDelay hop htr
    maxRetries hmr (Nat.le_refl _) none
  rw [retryOperation, h]
  refine ⟨rfl, rfl, ?_⟩
  rw [List.range_eq_range', Nat.sub_self]

theorem retryOperation_all_transient_exhausts_witness :
    (retryOperation opAll503 3 2000).attempts = 3 ∧
    (retryOperation opAll503 3 2000).result = Except.error (some err503) ∧
    (retryOperation opAll503 3 2000).delays = [2000, 4000] := by
  have h := retryOperation_all_transient_exhausts opAll503 (fun _ => err503) 3 2000
    (fun _ => rfl) (fun _ => rfl) (by decide)
  exact ⟨h.1, h.2.1, by rw [h.2.2]; decide⟩

/-- Claim C2 counterexample: for the operation whose first three
invocations fail with 429 and whose fourth would succeed with 42,
`retryOperation` with default parameters makes only 3 attempts (not
the 4 the claim states) and rejects with the third error instead of
resolving with 42. -/
theorem retryOperation_fourth_attempt_counterexample :
    (retryOperation opC2 3 2000).attempts = 3 ∧
    ¬ (retryOperation opC2 3 2000).attempts = 4 ∧
    (retryOperation opC2 3 2000).result =
      Except.error (some ⟨some 429, "rate limited"⟩) :=
  ⟨rfl, by decide, rfl⟩

/-- Claim C2 (amended): for an operation whose first three invocations
each fail with a transient error, `retryOperation` with default
parameters invokes the operation exactly 3 times — the fourth
invocation never occurs — sleeps 2000 then 4000 ms between attempts,
and rejects with the third invocation's error. -/
theorem retryOperation_three_transient_failures_default {α : Type}
    (op : Nat → Outcome α) (es : Nat → ErrVal)
    (hop : ∀ i, i < 3 → op i = Outcome.err (es i))
    (htr : ∀ i, i < 3 → shouldRetry (es i) = true) :
    (retryOperation op 3 2000).attempts = 3 ∧
    (retryOperation op 3 2000).result = Except.error (some (es 2)) ∧
    (retryOperation op 3 2000).delays = [2000, 4000] := by
  have s0 : retryLoop op 3 2000 1 (some (es 1)) =
      ⟨Except.error (some (es 2)), 1, []⟩ :=
    retryLoop_succ_throw_last (k := 0) (hop 2 (by omega)) (by omega)
  have s1 : retryLoop op 3 2000 2 (some (es 0)) =
      ⟨(retryLoop op 3 2000 1 (some (es 1))).result,
       (retryLoop op 3 2000 1 (some (es 1))).attempts + 1,
       2000 * 2 ^ 1 :: (retryLoop op 3 2000 1 (some (es 1))).delays⟩ :=
    retryLoop_succ_retry (k := 1) (hop 1 (by omega)) (htr 1 (by omega)) (by omega)
  have s2 : retryLoop op 3 2000 3 none =
      ⟨(retryLoop op 3 2000 2 (some (es 0))).result,
       (retryLoop op 3 2000 2 (some (es 0))).attempts + 1,
       2000 * 2 ^ 0 :: (retryLoop op 3 2000 2 (some (es 0))).delays⟩ :=
    retryLoop_succ_retry (k := 2) (hop 0 (by omega)) (htr 0 (by omega)) (by omega)
  rw [retryOperation, s2, s1, s0]
  refine ⟨rfl, rfl, by norm_num⟩

theorem retryOperation_three_transient_failures_default_witness :
    (retryOperation opC2 3 2000).attempts = 3 ∧
    (retryOperation opC2 3 2000).result =
      Except.error (some ⟨some 429, "rate limited"⟩) ∧
    (retryOperation opC2 3 2000).delays = [2000, 4000] :=
  retryOperation_three_transient_failures_default opC2
    (fun _ => ⟨some 429, "rate limited"⟩)
    (fun i hi => by simp [opC2, hi]) (fun _ _ => rfl)

/-- Claim C3: for every operation whose first invocation fails with a
non-transient error (status neither 429 nor 503), `retryOperation`
invokes the operation exactly once, rejects with that same error
unchanged, and issues no delay. -/
theorem retryOperation_nontransient_single_attempt {α : Type}
    (op : Nat → Outcome α) (e : ErrVal) (maxRetries initialDelay : Nat)
    (h0 : op 0 = Outcome.err e) (hnt : shouldRetry e = false)
    (hmr : 1 ≤ maxRetries) :
    (retryOperation op maxRetries initialDelay).attempts = 1 ∧
    (retryOperation op maxRetries initialDelay).result = Except.error (some e) ∧
    (retryOperation op maxRetries initialDelay).delays = [] := by
  obtain ⟨k, rfl⟩ : ∃ k, maxRetries = k + 1 := ⟨maxRetries - 1, by omega⟩
  have h0' : op (k + 1 - (k + 1)) = Outcome.err e := by
    rw [Nat.sub_self]; exact h0
  rw [retryOperation, retryLoop_succ_throw_perm h0' hnt]
  exact ⟨rfl, rfl, rfl⟩

theorem retryOperation_nontransient_single_attempt_witness :
    (retryOperation opAll400 3 2000).attempts = 1 ∧
    (retryOperation opAll400 3 2000).result = Except.error (some err400) ∧
    (retryOperation opAll400 3 2000).delays = [] :=
  retryOperation_nontransient_single_attempt opAll400 err400 3 2000 rfl rfl
    (by decide)

/-- Claim C4: when `handleTypeSelection` issues its two concurrent
operations (both `originalImage` and `analysis` present), the state
becomes COMPLETE exactly when both resolve successfully; if either
rejects, the state is REVIEW_ANALYSIS and `plan` and `restoredImage`
keep the values they had before the attempt. -/
theorem handleTypeSelection_complete_iff (s : AppFull) (t : RestorationType)
    (b : BudgetLevel) (imgRes : Except ErrVal String)
    (planRes : Except ErrVal RestorationPlan)
    (himg : s.project.originalImage.isSome = true)
    (hana : s.project.analysis.isSome = true) :
    ((handleTypeSelection s t b imgRes planRes).appState = AppState.COMPLETE ↔
      imgRes.isOk = true ∧ planRes.isOk = true) ∧
    (imgRes.isOk = false ∨ planRes.isOk = false →
      (handleTypeSelection s t b imgRes planRes).appState = AppState.REVIEW_ANALYSIS ∧
      (handleTypeSelection s t b imgRes planRes).project.plan = s.project.plan ∧
      (handleTypeSelection s t b imgRes planRes).project.restoredImage =
        s.project.restoredImage) := by
  obtain ⟨o, ho⟩ := Option.isSome_iff_exists.mp himg
  obtain ⟨a, ha⟩ := Option.isSome_iff_exists.mp hana
  cases imgRes <;> cases planRes <;>
    simp [handleTypeSelection, ho, ha, Except.isOk, Except.toBool]

theorem handleTypeSelection_complete_iff_witness :
    (handleTypeSelection reviewState RestorationType.POLLINATOR_HAVEN
        BudgetLevel.MEDIUM (Except.error err400)
        (Except.ok samplePlan)).appState = AppState.REVIEW_ANALYSIS ∧
    (handleTypeSelection reviewState RestorationType.POLLINATOR_HAVEN
        BudgetLevel.MEDIUM (Except.error err400)
        (Except.ok samplePlan)).project.plan = reviewState.project.plan ∧
    (handleTypeSelection reviewState RestorationType.POLLINATOR_HAVEN
        BudgetLevel.MEDIUM (Except.error err400)
        (Except.ok samplePlan)).project.restoredImage =
      reviewState.project.restoredImage :=
  (handleTypeSelection_complete_iff reviewState RestorationType.POLLINATOR_HAVEN
    BudgetLevel.MEDIUM (Except.error err400) (Except.ok samplePlan)
    rfl rfl).2 (Or.inl rfl)

/-- Claim C5 counterexample: the invariant "plan non-null implies
analysis non-null" is false of the program.  Along the concrete
interleaving in which the session is reset while
`handleTypeSelection`'s `Promise.all` is in flight, the stale
continuation commits the plan onto the reset project: the resulting
reachable state is COMPLETE with `plan` non-null and `analysis`
null. -/
theorem asyncReachable_plan_without_analysis :
    AsyncReachable staleCommitState ∧
    staleCommitState.appState = AppState.COMPLETE ∧
    staleCommitState.project.plan = some samplePlan ∧
    staleCommitState.project.analysis = none := by
  refine ⟨?_, rfl, rfl, rfl⟩
  exact AsyncReachable.next _ _ (AsyncReachable.next _ _ (AsyncReachable.next _ _
    (AsyncReachable.next _ _ (AsyncReachable.next _ _ AsyncReachable.init))))

theorem quietReachable_inv :
    ∀ s : AsyncApp, QuietReachable s → PlanAnalysisInv s := by
  intro s hr
  induction hr with
  | init =>
      exact ⟨fun h => absurd rfl h, fun i p hmem => absurd hmem (by simp [asyncInit])⟩
  | next s' e _hq hres ih =>
      cases e with
      | uploadStart d r =>
          refine ⟨fun hp => ih.1 hp, fun i p hmem => ?_⟩
          have : Pending.generation i p ∈ s'.pending := by
            simp only [asyncStep, List.mem_append, List.mem_singleton] at hmem
            rcases hmem with h | h
            · exact h
            · exact absurd h (by simp)
          exact ih.2 i p this
      | selectStart t b i0 p0 =>
          cases ho : s'.project.originalImage with
          | none => simpa [asyncStep, ho] using ih
          | some o =>
              cases ha : s'.project.analysis with
              | none => simpa [asyncStep, ho, ha] using ih
              | some a =>
                  constructor
                  · intro _
                    simp [asyncStep, ho, ha]
                  · intro i p _
                    simp [asyncStep, ho, ha]
      | settle n =>
          cases hn : s'.pending[n]? with
          | none => simpa [asyncStep, hn] using ih
          | some entry =>
              cases entry with
              | analysisCall r =>
                  cases r with
                  | ok a =>
                      refine ⟨fun _ => ?_, fun i p _ => ?_⟩ <;>
                        simp [asyncStep, hn]
                  | error err =>
                      refine ⟨fun hp => ?_, fun i p hmem => ?_⟩
                      · have h1 := ih.1 (by simpa [asyncStep, hn] using hp)
                        simpa [asyncStep, hn] using h1
                      · have hmem' : Pending.generation i p ∈ s'.pending := by
                          simp only [asyncStep, hn] at hmem
                          exact List.eraseIdx_subset _ _ hmem
                        simpa [asyncStep, hn] using ih.2 i p hmem'
              | generation ig pg =>
                  have hana : s'.project.analysis ≠ none :=
                    ih.2 ig pg (List.getElem?_mem hn)
                  cases ig with
                  | ok img =>
                      cases pg with
                      | ok plan =>
                          refine ⟨fun _ => ?_, fun i p hmem => ?_⟩
                          · simpa [asyncStep, hn] using hana
                          · simpa [asyncStep, hn] using hana
                      | error ep =>
                          refine ⟨fun hp => ?_, fun i p hmem => ?_⟩
                          · have h1 := ih.1 (by simpa [asyncStep, hn] using hp)
                            simpa [asyncStep, hn] using h1
                          · have hmem' : Pending.generation i p ∈ s'.pending := by
                              simp only [asyncStep, hn] at hmem
                              exact List.eraseIdx_subset _ _ hmem
                            simpa [asyncStep, hn] using ih.2 i p hmem'
                  | error ei =>
                      refine ⟨fun hp => ?_, fun i p hmem => ?_⟩
                      · have h1 := ih.1 (by simpa [asyncStep, hn] using hp)
                        simpa [asyncStep, hn] using h1
                      · have hmem' : Pending.generation i p ∈ s'.pending := by
                          simp only [asyncStep, hn] at hmem
                          exact List.eraseIdx_subset _ _ hmem
                        simpa [asyncStep, hn] using ih.2 i p hmem'
      | locationOk c =>
          exact ⟨fun hp => ih.1 hp, fun i p hmem => ih.2 i p hmem⟩
      | locationFail => exact ih
      | reset =>
          have hemp : s'.pending = [] := hres rfl
          refine ⟨fun hp => absurd rfl hp, fun i p hmem => ?_⟩
          rw [show (asyncStep s' AsyncEvent.reset).pending = s'.pending from rfl,
            hemp] at hmem
          exact absurd hmem (by simp)

/-- Claim C5 (amended): in every application state reachable by an
execution in which the session is never reset while a service call
is in flight, a non-null `ProjectState.plan` implies a non-null
`ProjectState.analysis`.  (Unrestricted, the invariant fails: see
the counterexample above, where a reset during the in-flight
`Promise.all` lets the stale continuation commit a plan onto a
project whose analysis is null.) -/
theorem quietReachable_plan_implies_analysis :
    ∀ s : AsyncApp, QuietReachable s → s.project.plan ≠ none →
      s.project.analysis ≠ none :=
  fun s hr => (quietReachable_inv s hr).1

theorem quietReachable_plan_implies_analysis_witness :
    quietCompleteState.project.analysis ≠ none :=
  quietReachable_plan_implies_analysis quietCompleteState
    (QuietReachable.next _ (AsyncEvent.settle 0)
      (QuietReachable.next _ (AsyncEvent.selectStart RestorationType.POLLINATOR_HAVEN
          BudgetLevel.MEDIUM (Except.ok "restored64") (Except.ok samplePlan))
        (QuietReachable.next _ (AsyncEvent.settle 0)
          (QuietReachable.next _ (AsyncEvent.uploadStart "img64"
              (Except.ok sampleAnalysis))
            QuietReachable.init (fun h => AsyncEvent.noConfusion h))
          (fun h => AsyncEvent.noConfusion h))
        (fun h => AsyncEvent.noConfusion h))
      (fun h => AsyncEvent.noConfusion h))
    (fun h => Option.noConfusion h)

/-- Claim C6: when the awaited site analysis rejects in a session
whose `analysis` is still null (in particular the initial Idle
session), the state is set to IDLE and `ProjectState.analysis`
remains null. -/
theorem startAnalysis_failure_idle (s : AppFull) (d : String) (e : ErrVal)
    (h : s.project.analysis = none) :
    (step s (Event.upload d (Except.error e))).appState = AppState.IDLE ∧
    (step s (Event.upload d (Except.error e))).project.analysis = none := by
  refine ⟨rfl, ?_⟩
  simpa [step, startAnalysis, handleFileUpload] using h

theorem startAnalysis_failure_idle_witness :
    (step initialApp (Event.upload "img64" (Except.error err503))).appState =
      AppState.IDLE ∧
    (step initialApp (Event.upload "img64" (Except.error err503))).project.analysis =
      none :=
  startAnalysis_failure_idle initialApp "img64" err503 rfl

/-- Claim C7: for every phase index, invoking `handleSearchForPhase`
with no known geolocation performs no network call
(`findLocalServices` is never invoked), surfaces the
location-required notice, and leaves the per-phase results and
loading state unchanged. -/
theorem handleSearchForPhase_no_location (st : PlanViewState) (index : Nat)
    (category : String) (parse : String → Option LocalSearchResult)
    (outcomes : Nat → ServiceCallOutcome) :
    (handleSearchForPhase none st index category parse outcomes).networkCalled =
      false ∧
    (handleSearchForPhase none st index category parse outcomes).alertMsg =
      some "Location is required to find local help." ∧
    (handleSearchForPhase none st index category parse outcomes).state = st :=
  ⟨rfl, rfl, rfl⟩

/-- Claim C8: for every failure inside a local-service lookup
(missing API key, request error, empty response, or malformed
JSON on the first attempt), `findLocalServices` resolves with the
empty result set rather than rejecting. -/
theorem findLocalServices_failure_empty
    (parse : String → Option LocalSearchResult)
    (outcomes : Nat → ServiceCallOutcome)
    (h : serviceFailure parse (outcomes 0) = true) :
    (findLocalServices parse outcomes).result = Except.ok ⟨[]⟩ := by
  have hA : attemptFindLocalServices parse (outcomes 0) = Outcome.ok ⟨[]⟩ := by
    cases ho : outcomes 0 with
    | noApiKey => rfl
    | requestError e => rfl
    | response t =>
        cases t with
        | none => rfl
        | some txt =>
            rw [ho] at h
            simp only [serviceFailure, Option.isNone_iff_eq_none] at h
            simp [attemptFindLocalServices, h]
  have h5 : retryLoop (fun i => attemptFindLocalServices parse (outcomes i))
      3 2000 3 none = ⟨Except.ok ⟨[]⟩, 1, []⟩ := retryLoop_succ_ok hA
  rw [findLocalServices, retryOperation, h5]

theorem findLocalServices_failure_empty_witness :
    (findLocalServices (fun _ => none)
      (fun _ => ServiceCallOutcome.noApiKey)).result = Except.ok ⟨[]⟩ :=
  findLocalServices_failure_empty (fun _ => none)
    (fun _ => ServiceCallOutcome.noApiKey) rfl

/-- Claim C9: `findLocalServices` never triggers the retry policy:
its inner catch converts every error into a successful empty result
before `retryOperation` can observe a rejection, so every lookup
makes exactly one underlying attempt and issues no delay. -/
theorem findLocalServices_single_attempt
    (parse : String → Option LocalSearchResult)
    (outcomes : Nat → ServiceCallOutcome) :
    (findLocalServices parse outcomes).attempts = 1 ∧
    (findLocalServices parse outcomes).delays = [] := by
  obtain ⟨v, hv⟩ : ∃ v, attemptFindLocalServices parse (outcomes 0) =
      Outcome.ok v := by
    cases outcomes 0 with
    | noApiKey => exact ⟨⟨[]⟩, rfl⟩
    | requestError e => exact ⟨⟨[]⟩, rfl⟩
    | response t =>
        cases t with
        | none => exact ⟨⟨[]⟩, rfl⟩
        | some txt =>
            cases hp : parse txt with
            | none => exact ⟨⟨[]⟩, by simp [attemptFindLocalServices, hp]⟩
            | some r => exact ⟨r, by simp [attemptFindLocalServices, hp]⟩
  have h5 : retryLoop (fun i => attemptFindLocalServices parse (outcomes i))
      3 2000 3 none = ⟨Except.ok v, 1, []⟩ := retryLoop_succ_ok hv
  rw [findLocalServices, retryOperation, h5]
  exact ⟨rfl, rfl⟩

/-- Claim C10: a restoration type whose suitability score is not
greater than 30 is not selectable — its button is disabled for any
`isGenerating` value and its click handler never invokes
`onSelectType`; consequently a click invocation can only arise for a
type whose score is strictly above 30. -/
theorem lowSuitability_not_selectable (analysis : SiteAnalysis)
    (t : RestorationType) (b : BudgetLevel) (g : Bool)
    (h : analysis.suitability t ≤ 30) :
    typeButtonDisabled g (analysis.suitability t) = true ∧
    analysisButtonClick analysis t b = none ∧
    (∀ t' b', analysisButtonClick analysis t' b' ≠ none →
      analysis.suitability t' > 30) := by
  have hv : isViable (analysis.suitability t) = false := by
    simp only [isViable, decide_eq_false_iff_not, not_lt]
    exact h
  refine ⟨?_, ?_, ?_⟩
  · simp [typeButtonDisabled, hv]
  · simp [analysisButtonClick, typeButtonClick, hv]
  · intro t' b' hne
    by_contra hle
    push_neg at hle
    have hv' : isViable (analysis.suitability t') = false := by
      simp only [isViable, decide_eq_false_iff_not, not_lt]
      exact hle
    exact hne (by simp [analysisButtonClick, typeButtonClick, hv'])

theorem lowSuitability_not_selectable_witness :
    typeButtonDisabled false
      (lowScoreAnalysis.suitability RestorationType.POLLINATOR_HAVEN) = true ∧
    analysisButtonClick lowScoreAnalysis RestorationType.POLLINATOR_HAVEN
      BudgetLevel.MEDIUM = none :=
  ⟨(lowSuitability_not_selectable lowScoreAnalysis RestorationType.POLLINATOR_HAVEN
      BudgetLevel.MEDIUM false (by decide)).1,
   (lowSuitability_not_selectable lowScoreAnalysis RestorationType.POLLINATOR_HAVEN
      BudgetLevel.MEDIUM false (by decide)).2.1⟩
